import Mathlib

/-!
Verification development for the ELO-Board hardware abstraction library
(`zlv_mint_elob_gplib`). The definitions below are shallow embeddings of the
C sources:

* `src/include/elob/util/error.h` / `src/src/elob/util/error.c`
  (the setjmp/longjmp-based try/catch mechanism),
* `src/src/elob/util/buffer.c` (the FIFO byte buffer),
* `src/src/elob/drivers/i2c_master.c` (`i2c_master_setBitrate`),
* `src/src/elob/drivers/uart.c` (`uart_setBaudrate`, the receive buffers),
* `src/src/elob/drivers/ds1307.c` together with the BCD macros of
  `src/include/elob/util/binary.h`.

Theorems about the embeddings follow the definitions.
-/

namespace Elob

/-- The `error_t` enumeration of `error.h` (numeric values 0..6 in
declaration order; `ERR_NONE = 0`). -/
inductive ErrorT where
  | ERR_NONE
  | ERR_STR_TOO_LONG
  | ERR_BITRATE_TOO_LOW
  | ERR_I2C_TRANSMISSION
  | ERR_BUFFER_OVERFLOW
  | ERR_OUT_OF_RANGE
  | ERR_INVALID_STR
deriving DecidableEq, Repr

/-- Numeric value of each `error_t` enumerator (C enum, starting at 0). -/
def ErrorT.code : ErrorT → ℕ
  | .ERR_NONE => 0
  | .ERR_STR_TOO_LONG => 1
  | .ERR_BITRATE_TOO_LOW => 2
  | .ERR_I2C_TRANSMISSION => 3
  | .ERR_BUFFER_OVERFLOW => 4
  | .ERR_OUT_OF_RANGE => 5
  | .ERR_INVALID_STR => 6

/-! ## Error / exception core (`error.h`, `error.c`)

The C library keeps process-wide state: `_error_h_currentJmpBuf` (a pointer to
the jump buffer of the innermost active `try` block, or of the global
handler), `_error_h_currentErrorName` and `_error_h_currentErrorMessage`
(the payload of the last throw), and it prints diagnostics through the USB
terminal.  We model the jump-buffer pointer by a natural number: the global
handler's buffer is target `0`, and the local `jmp_buf` allocated by a `try`
block nested `d` levels deep is target `d` (a fresh identity distinct from
every live outer buffer, exactly like the distinct stack addresses of the
local `jmp_buf`s in C). -/

/-- Value delivered to `setjmp` by `longjmp(env, val)`: per the C standard
(and avr-libc), if `val` is `0` the `setjmp` invocation returns `1`. -/
def longjmpVal (c : ℕ) : ℕ := if c = 0 then 1 else c

/-- The strings printed by `_error_h_throw` (error.c lines 26-34), one list
element per `usb_terminal_print` call: `"\r\n\r\n"`, `" "`, the error name,
`" "`, `"\r\n"` (the `setStyle`/`setColors` escape output is not modelled). -/
def throwPrints (name : String) : List String :=
  ["\r\n\r\n", " ", name, " ", "\r\n"]

/-- The strings printed by `_error_h_throwWithMessage` (error.c lines 45-56):
`usb_terminal_println(msg)` is `print msg` followed by `print "\r\n"`
(usb_terminal.c lines 68-71). -/
def throwMsgPrints (name msg : String) : List String :=
  ["\r\n\r\n", " ", name, " ", " ", msg, "\r\n"]

/-- The process-wide state of the error library: the current jump-target
pointer `_error_h_currentJmpBuf` (as a target identity), the two current-error
slots `_error_h_currentErrorName` / `_error_h_currentErrorMessage`
(`none` models a null pointer), and the text printed to the USB terminal. -/
structure EState where
  cur : ℕ
  errName : Option String
  errMsg : Option String
  out : List String
deriving DecidableEq, Repr

/-- Control outcome of running a statement: normal completion, or a pending
`longjmp` to jump buffer `target` delivering `val` to its `setjmp`. -/
inductive Outcome where
  | normal
  | thrown (target : ℕ) (val : ℕ)
deriving DecidableEq, Repr

/-- Statement language for client code of the error library: plain
statements, `throw(code)` / `throwMessage(code, msg)` (the macros expand to
`_error_h_throw(code, #code)` resp. `_error_h_throwWithMessage`), and the
`try { body } catch { handler }` construct of `error.h`. -/
inductive Stmt where
  | skip
  | print (s : String)
  | seq (a b : Stmt)
  | throwStmt (code : ℕ) (name : String)
  | throwMsgStmt (code : ℕ) (name : String) (msg : String)
  | tryCatch (body handler : Stmt)

/-- Interpreter for `Stmt`, mirroring the `try` / `_closeTry` / `catch`
macros (error.h lines 128-153) and `_error_h_throw(WithMessage)`
(error.c lines 25-64):

* `throw`: print the diagnostics, store name/message into the current-error
  slots (`message := none` for the message-less variant), then
  `longjmp(_error_h_currentJmpBuf, errorCode)` — the outcome records the
  current target and the delivered value; the statement never completes
  normally.
* `tryCatch`: save `_error_h_previousJmpBuf := _error_h_currentJmpBuf`,
  install the fresh local buffer (`prev + 1`) as current, run the body.
  When the body completes normally, or a `longjmp` arrives at the local
  buffer, `_closeTry` restores the previous pointer; the handler then runs
  iff the `setjmp` result is nonzero.  A `longjmp` addressed to some other
  (outer) buffer flies past this block without restoring anything. -/
def run : Stmt → EState → EState × Outcome
  | .skip, st => (st, .normal)
  | .print s, st => ({ st with out := st.out ++ [s] }, .normal)
  | .seq a b, st =>
    match run a st with
    | (st1, .normal) => run b st1
    | (st1, .thrown t v) => (st1, .thrown t v)
  | .throwStmt c n, st =>
    ({ st with errName := some n, errMsg := none, out := st.out ++ throwPrints n },
      .thrown st.cur (longjmpVal c))
  | .throwMsgStmt c n m, st =>
    ({ st with errName := some n, errMsg := some m, out := st.out ++ throwMsgPrints n m },
      .thrown st.cur (longjmpVal c))
  | .tryCatch body handler, st =>
    match run body { st with cur := st.cur + 1 } with
    | (st1, .normal) => ({ st1 with cur := st.cur }, .normal)
    | (st1, .thrown t v) =>
      if t = st.cur + 1 then
        if v ≠ 0 then run handler { st1 with cur := st.cur }
        else ({ st1 with cur := st.cur }, .normal)
      else (st1, .thrown t v)

/-- The value a `longjmp` delivers is never `0`. -/
theorem longjmpVal_ne_zero (c : ℕ) : longjmpVal c ≠ 0 := by
  unfold longjmpVal
  split <;> simp_all

/-- Jump-target discipline of the interpreter: running any statement leaves
the current jump-target pointer exactly as it was, and any `longjmp` escaping
a statement is addressed to the jump target that was current when the
statement started. -/
theorem run_discipline (s : Stmt) :
    ∀ st : EState, ((run s st).1).cur = st.cur ∧
      ∀ t v, (run s st).2 = Outcome.thrown t v → t = st.cur := by
  induction s with
  | skip => intro st; simp [run]
  | print s => intro st; simp [run]
  | seq a b iha ihb =>
    intro st
    simp only [run]
    split
    · rename_i st1 heq
      have ha := iha st
      rw [heq] at ha
      have hb := ihb st1
      rw [ha.1] at hb
      exact hb
    · rename_i st1 t v heq
      have ha := iha st
      rw [heq] at ha
      refine ⟨ha.1, ?_⟩
      intro t' v' h'
      simp only [Outcome.thrown.injEq] at h'
      have := ha.2 t v rfl
      omega
  | throwStmt c n => intro st; simp [run]
  | throwMsgStmt c n m => intro st; simp [run]
  | tryCatch body handler ihb ihh =>
    intro st
    simp only [run]
    split
    · simp
    · rename_i st1 t v heq
      have hb := ihb { st with cur := st.cur + 1 }
      rw [heq] at hb
      have ht : t = st.cur + 1 := by simpa using hb.2 t v rfl
      rw [if_pos ht]
      split_ifs with hv
      · have hh := ihh { st1 with cur := st.cur }
        simpa using hh
      · simp

/-- State of the current-error slots and terminal after `_error_h_throw`
stores its payload (no source location exists anywhere in the state). -/
def throwEffect (st : EState) (n : String) : EState :=
  { st with errName := some n, errMsg := none, out := st.out ++ throwPrints n }

/-- Any `longjmp` escaping a statement delivers a nonzero value. -/
theorem run_thrown_val_ne_zero (s : Stmt) :
    ∀ (st st1 : EState) (t v : ℕ), run s st = (st1, Outcome.thrown t v) → v ≠ 0 := by
  induction s with
  | skip => intro st st1 t v h; simp [run] at h
  | print s => intro st st1 t v h; simp [run] at h
  | seq a b iha ihb =>
    intro st st1 t v h
    simp only [run] at h
    split at h
    · exact ihb _ _ _ _ h
    · rename_i st2 t2 v2 heq
      simp only [Prod.mk.injEq, Outcome.thrown.injEq] at h
      exact h.2.2 ▸ iha _ _ _ _ heq
  | throwStmt c n =>
    intro st st1 t v h
    simp only [run, Prod.mk.injEq, Outcome.thrown.injEq] at h
    exact h.2.2 ▸ longjmpVal_ne_zero c
  | throwMsgStmt c n m =>
    intro st st1 t v h
    simp only [run, Prod.mk.injEq, Outcome.thrown.injEq] at h
    exact h.2.2 ▸ longjmpVal_ne_zero c
  | tryCatch body handler ihb ihh =>
    intro st st1 t v h
    simp only [run] at h
    split at h
    · simp at h
    · rename_i st2 t2 v2 heq
      split at h
      · split at h
        · exact ihh _ _ _ _ h
        · simp at h
      · simp only [Prod.mk.injEq, Outcome.thrown.injEq] at h
        exact h.2.2 ▸ ihb _ _ _ _ heq

/-- Terminal output only grows: the output before running a statement is a
prefix of the output afterwards (every print appends). -/
theorem run_out_mono (s : Stmt) : ∀ st : EState, st.out <+: ((run s st).1).out := by
  induction s with
  | skip => intro st; simp [run]
  | print s => intro st; simp [run]
  | seq a b iha ihb =>
    intro st
    simp only [run]
    split
    · rename_i st1 heq
      have ha := iha st
      rw [heq] at ha
      exact ha.trans (ihb st1)
    · rename_i st1 t v heq
      have ha := iha st
      rw [heq] at ha
      exact ha
  | throwStmt c n => intro st; simp [run]
  | throwMsgStmt c n m => intro st; simp [run]
  | tryCatch body handler ihb ihh =>
    intro st
    simp only [run]
    split
    · rename_i st1 heq
      have hb := ihb { st with cur := st.cur + 1 }
      rw [heq] at hb
      exact hb
    · rename_i st1 t v heq
      have hb := ihb { st with cur := st.cur + 1 }
      rw [heq] at hb
      split_ifs with h1 h2
      · exact hb.trans (ihh { st1 with cur := st.cur })
      · exact hb
      · exact hb

/-- C1: the protected-scope construct obeys a strict stack discipline.
Part 1: running any statement (in particular any nest of `try`/`catch`
scopes, leaving by any path) restores `_error_h_currentJmpBuf` to exactly its
value before entry.  Part 2: for an arbitrary nesting context, a throw inside
a doubly-nested protected scope behaves exactly like the inner handler `h₂`
guarded by the outer scope alone: the throw is delivered to the innermost
scope (`h₂` runs, `h₁` does not), a throw inside the handler `h₂` is
delivered to the next outer scope (`h₁`), and the handlers run with the
previous jump target restored. -/
theorem tryCatch_stack_discipline :
    (∀ (s : Stmt) (st : EState), ((run s st).1).cur = st.cur) ∧
    (∀ (c : ℕ) (n : String) (h₂ h₁ : Stmt) (st : EState),
      run (.tryCatch (.tryCatch (.throwStmt c n) h₂) h₁) st =
        run (.tryCatch h₂ h₁) (throwEffect st n)) := by
  constructor
  · intro s st
    exact (run_discipline s st).1
  · intro c n h₂ h₁ st
    have hv := longjmpVal_ne_zero c
    simp only [run, throwEffect, if_pos rfl, hv, ne_eq, not_false_iff, if_true]

/-- Initial process state: the global handler's jump buffer (target `0`) is
current (`error_init`), no error has been recorded, nothing printed yet. -/
def st0 : EState := { cur := 0, errName := none, errMsg := none, out := [] }

/-- C2 (counterexample): the claim as stated fails on the code.  First, a
throw of error code `0` does not deliver `0` as the jump's result value —
`longjmp` delivers `1` (C / avr-libc semantics), so the handler does not
observe the thrown code.  Second, the entire process-wide state stored by a
throw (shown verbatim for a concrete throw) consists of the name and message
slots and the printed text only: `_error_h_throw` receives no source-location
argument (`throw(error)` expands to `_error_h_throw(error, #error)`), so no
source location of the call site is captured anywhere. -/
theorem throw_payload_counterexample :
    (run (.throwStmt 0 "ERR_NONE") st0).2 ≠ Outcome.thrown 0 0 ∧
    (run (.throwStmt 0 "ERR_NONE") st0).2 = Outcome.thrown 0 1 ∧
    run (.throwStmt 3 "ERR_I2C_TRANSMISSION") st0 =
      ({ cur := 0, errName := some "ERR_I2C_TRANSMISSION", errMsg := none,
         out := throwPrints "ERR_I2C_TRANSMISSION" }, Outcome.thrown 0 3) := by
  refine ⟨?_, ?_, ?_⟩ <;> simp [run, st0, longjmpVal, throwPrints]

/-- C2 (amended): for every nonzero error code, the throw operation never
returns: it stores the error name and the free-text message (null when thrown
without a message) into the process-wide current-error slots — no source
location is captured — and performs the non-local jump to the current jump
target with the error code as the jump's result value, so a handler reading
the error code, name and message observes exactly the thrown payload. -/
theorem throw_payload (c : ℕ) (n m : String) (h : Stmt) (st : EState) (hc : c ≠ 0) :
    run (.throwStmt c n) st =
      ({ st with errName := some n, errMsg := none, out := st.out ++ throwPrints n },
        Outcome.thrown st.cur c) ∧
    run (.throwMsgStmt c n m) st =
      ({ st with errName := some n, errMsg := some m, out := st.out ++ throwMsgPrints n m },
        Outcome.thrown st.cur c) ∧
    run (.tryCatch (.throwMsgStmt c n m) h) st =
      run h { st with errName := some n, errMsg := some m,
                      out := st.out ++ throwMsgPrints n m } := by
  refine ⟨?_, ?_, ?_⟩ <;>
    simp [run, longjmpVal, hc]

/-- C2 (witness): the amended theorem applied at error code 3
(`ERR_I2C_TRANSMISSION`) with a concrete message and a skip handler. -/
theorem throw_payload_witness :
    run (.tryCatch (.throwMsgStmt 3 "ERR_I2C_TRANSMISSION" "NACK received") .skip) st0 =
      run .skip { st0 with errName := some "ERR_I2C_TRANSMISSION",
                           errMsg := some "NACK received",
                           out := st0.out ++ throwMsgPrints "ERR_I2C_TRANSMISSION" "NACK received" } :=
  (throw_payload 3 "ERR_I2C_TRANSMISSION" "NACK received" .skip st0 (by decide)).2.2

/-- C7: error code `0` is never observed by a catch handler, and a handler
body runs if and only if the value delivered by the non-local jump is
nonzero.  Part 1: every `longjmp` escaping any statement delivers a nonzero
value (`longjmp(env, 0)` delivers `1`).  Part 2: when the protected body
throws, the scope runs its handler (on the state left by the throw, with the
previous target restored).  Part 3: when the protected body completes
normally (`setjmp` returned `0`), the handler is skipped. -/
theorem handler_runs_iff_nonzero :
    (∀ (s : Stmt) (st st1 : EState) (t v : ℕ),
      run s st = (st1, Outcome.thrown t v) → v ≠ 0) ∧
    (∀ (body h : Stmt) (st st1 : EState) (t v : ℕ),
      run body { st with cur := st.cur + 1 } = (st1, Outcome.thrown t v) →
      run (.tryCatch body h) st = run h { st1 with cur := st.cur }) ∧
    (∀ (body h : Stmt) (st st1 : EState),
      run body { st with cur := st.cur + 1 } = (st1, Outcome.normal) →
      run (.tryCatch body h) st = ({ st1 with cur := st.cur }, Outcome.normal)) := by
  refine ⟨run_thrown_val_ne_zero, ?_, ?_⟩
  · intro body h st st1 t v heq
    have ht : t = st.cur + 1 := by
      simpa using (run_discipline body { st with cur := st.cur + 1 }).2 t v (by rw [heq])
    have hv : v ≠ 0 := run_thrown_val_ne_zero body _ _ _ _ heq
    simp only [run, heq, ht, if_pos rfl, hv, ne_eq, not_false_iff, if_true]
  · intro body h st st1 heq
    simp only [run, heq]

/-- C7 (witness): a concrete protected scope whose body throws code 5 runs
its handler on the post-throw state with the previous target restored. -/
theorem handler_runs_iff_nonzero_witness :
    run (.tryCatch (.throwStmt 5 "ERR_OUT_OF_RANGE") .skip) st0 =
      run .skip { cur := 0, errName := some "ERR_OUT_OF_RANGE", errMsg := none,
                  out := throwPrints "ERR_OUT_OF_RANGE" } :=
  handler_runs_iff_nonzero.2.1 (.throwStmt 5 "ERR_OUT_OF_RANGE") .skip st0
    { cur := 1, errName := some "ERR_OUT_OF_RANGE", errMsg := none,
      out := throwPrints "ERR_OUT_OF_RANGE" } 1 5 (by simp [run, st0, longjmpVal, throwPrints])

/-- C10: every throw writes the error name (and for `throwMessage` also the
message text) to the USB terminal before performing the non-local jump: the
state carried by the jump already contains the diagnostic output.  Part 3
shows the output survives in a protected scope, i.e. diagnostic output is
produced even on throws that are subsequently caught. -/
theorem throw_always_prints :
    (∀ (c : ℕ) (n : String) (st : EState),
      ((run (.throwStmt c n) st).1).out = st.out ++ throwPrints n ∧ n ∈ throwPrints n) ∧
    (∀ (c : ℕ) (n m : String) (st : EState),
      ((run (.throwMsgStmt c n m) st).1).out = st.out ++ throwMsgPrints n m ∧
        n ∈ throwMsgPrints n m ∧ m ∈ throwMsgPrints n m) ∧
    (∀ (c : ℕ) (n : String) (h : Stmt) (st : EState),
      (st.out ++ throwPrints n) <+: ((run (.tryCatch (.throwStmt c n) h) st).1).out) := by
  refine ⟨?_, ?_, ?_⟩
  · intro c n st
    simp [run, throwPrints]
  · intro c n m st
    simp [run, throwMsgPrints]
  · intro c n h st
    have hv := longjmpVal_ne_zero c
    simp only [run, if_pos rfl, hv, ne_eq, not_false_iff, if_true]
    simpa using run_out_mono h
      { cur := st.cur, errName := some n, errMsg := none, out := st.out ++ throwPrints n }

/-! ## FIFO buffer (`buffer.h`, `buffer.c`)

`Buffer_t` holds a type tag, the current element count `size`, the capacity
`maxSize` and a pointer to a backing array.  We model the live region
`ptr[0..size)` as a list (`size` is its length); the cells at and beyond
`size` are never read by the library.  `buffer_put` appends at index `size`
and increments `size`; `buffer_get` takes `ptr[0]`, decrements `size` and
shifts the remaining bytes left by one (`memmove`).  A failing operation
throws (`longjmp`s) before performing any mutation, so it is modelled as
returning the buffer unchanged together with the thrown error. -/

/-- `BufferType_t` of buffer.h (only FIFO exists). -/
inductive BufferType_t where
  | BUFFER_TYPE_FIFO
deriving DecidableEq, Repr

/-- `Buffer_t`: the `data` list is the live region `ptr[0..size)`. -/
structure Buffer_t where
  type : BufferType_t
  data : List ℕ
  maxSize : ℕ
deriving DecidableEq, Repr

/-- `buffer_empty`: `size == 0`. -/
def buffer_empty (b : Buffer_t) : Bool := b.data.length == 0

/-- `buffer_full`: `size >= maxSize`. -/
def buffer_full (b : Buffer_t) : Bool := b.maxSize ≤ b.data.length

/-- `buffer_put` (buffer.c lines 10-18): throws `ERR_BUFFER_OVERFLOW` when
the buffer is full (before touching the contents), else writes the byte at
index `size` and increments `size`. -/
def buffer_put (b : Buffer_t) (d : ℕ) : Buffer_t × Option ErrorT :=
  if buffer_full b then (b, some .ERR_BUFFER_OVERFLOW)
  else ({ b with data := b.data ++ [d] }, none)

/-- `buffer_get` (buffer.c lines 28-41): throws `ERR_BUFFER_OVERFLOW` when
the buffer is empty (before touching the contents, and without producing a
byte), else returns `ptr[0]`, decrements `size` and shifts the remaining
`size` bytes one to the left. -/
def buffer_get (b : Buffer_t) : Buffer_t × Option ℕ × Option ErrorT :=
  match b.data with
  | [] => (b, none, some .ERR_BUFFER_OVERFLOW)
  | d :: rest => ({ b with data := rest }, some d, none)

/-- C5: `buffer_put` on a full buffer (`size == maxSize`) throws the
buffer-overflow error and leaves the buffer's size and contents unchanged;
`buffer_get` on an empty buffer throws the buffer-overflow error; in the
remaining cases (under the `size <= maxSize` data-model invariant)
`buffer_put` appends the byte and increments `size` by one and `buffer_get`
removes the head byte and decrements `size` by one. -/
theorem buffer_overflow_policy :
    (∀ (b : Buffer_t) (d : ℕ), b.data.length = b.maxSize →
      buffer_put b d = (b, some .ERR_BUFFER_OVERFLOW)) ∧
    (∀ (b : Buffer_t) (d : ℕ), b.data.length < b.maxSize →
      buffer_put b d = ({ b with data := b.data ++ [d] }, none) ∧
      ((buffer_put b d).1).data.length = b.data.length + 1) ∧
    (∀ b : Buffer_t, b.data = [] →
      buffer_get b = (b, none, some .ERR_BUFFER_OVERFLOW)) ∧
    (∀ (b : Buffer_t) (x : ℕ) (rest : List ℕ), b.data = x :: rest →
      buffer_get b = ({ b with data := rest }, some x, none) ∧
      ((buffer_get b).1).data.length + 1 = b.data.length) := by
  refine ⟨?_, ?_, ?_, ?_⟩
  · intro b d h
    simp [buffer_put, buffer_full, h]
  · intro b d h
    have hf : ¬ buffer_full b = true := by
      simp [buffer_full]; omega
    constructor <;> simp [buffer_put, hf]
  · intro b h
    simp [buffer_get, h]
  · intro b x rest h
    constructor <;> simp [buffer_get, h]

/-- C5 (witness): the theorem applied to a full 2-byte buffer, to a
non-full buffer, to the empty buffer, and to a 1-element buffer. -/
theorem buffer_overflow_policy_witness :
    buffer_put ⟨.BUFFER_TYPE_FIFO, [7, 8], 2⟩ 9 =
      (⟨.BUFFER_TYPE_FIFO, [7, 8], 2⟩, some .ERR_BUFFER_OVERFLOW) ∧
    buffer_put ⟨.BUFFER_TYPE_FIFO, [7], 2⟩ 9 = (⟨.BUFFER_TYPE_FIFO, [7, 9], 2⟩, none) ∧
    buffer_get ⟨.BUFFER_TYPE_FIFO, [], 2⟩ =
      (⟨.BUFFER_TYPE_FIFO, [], 2⟩, none, some .ERR_BUFFER_OVERFLOW) ∧
    buffer_get ⟨.BUFFER_TYPE_FIFO, [7, 8], 2⟩ = (⟨.BUFFER_TYPE_FIFO, [8], 2⟩, some 7, none) :=
  ⟨buffer_overflow_policy.1 ⟨.BUFFER_TYPE_FIFO, [7, 8], 2⟩ 9 (by decide),
   (buffer_overflow_policy.2.1 ⟨.BUFFER_TYPE_FIFO, [7], 2⟩ 9 (by decide)).1,
   buffer_overflow_policy.2.2.1 ⟨.BUFFER_TYPE_FIFO, [], 2⟩ rfl,
   (buffer_overflow_policy.2.2.2 ⟨.BUFFER_TYPE_FIFO, [7, 8], 2⟩ 7 [8] rfl).1⟩

/-- One step of an interleaved `buffer_put` / `buffer_get` sequence. -/
inductive BufOp where
  | putOp (d : ℕ)
  | getOp
deriving DecidableEq, Repr

/-- The bytes passed to `buffer_put` by a sequence of operations, in order. -/
def putsOf (ops : List BufOp) : List ℕ :=
  ops.filterMap fun op => match op with | .putOp d => some d | .getOp => none

/-- Run a sequence of interleaved `buffer_put` / `buffer_get` operations,
collecting the bytes returned by `buffer_get` in order.  The result is `none`
when some operation throws, i.e. when the sequence pushes onto a full buffer
or pops from an empty one. -/
def runOps : List BufOp → Buffer_t → Option (Buffer_t × List ℕ)
  | [], b => some (b, [])
  | .putOp d :: ops, b =>
    match buffer_put b d with
    | (b2, none) => runOps ops b2
    | (_, some _) => none
  | .getOp :: ops, b =>
    match buffer_get b with
    | (b2, some d, none) => (runOps ops b2).map fun r => (r.1, d :: r.2)
    | _ => none

/-- FIFO invariant: a successful run turns the initial contents followed by
the pushed bytes into the popped bytes followed by the final contents. -/
theorem runOps_fifo (ops : List BufOp) :
    ∀ (b b2 : Buffer_t) (outs : List ℕ), runOps ops b = some (b2, outs) →
      b.data ++ putsOf ops = outs ++ b2.data := by
  induction ops with
  | nil =>
    intro b b2 outs h
    simp only [runOps, Option.some.injEq, Prod.mk.injEq] at h
    obtain ⟨rfl, rfl⟩ := h
    simp [putsOf]
  | cons op ops ih =>
    intro b b2 outs h
    cases op with
    | putOp d =>
      by_cases hf : buffer_full b
      · simp [runOps, buffer_put, hf] at h
      · simp only [runOps, buffer_put, hf, Bool.false_eq_true, if_false] at h
        have := ih _ _ _ h
        simp only [putsOf, List.filterMap_cons] at this ⊢
        simpa [List.append_assoc] using this
    | getOp =>
      cases hdata : b.data with
      | nil => simp [runOps, buffer_get, hdata] at h
      | cons x rest =>
        simp only [runOps, buffer_get, hdata] at h
        rcases h2 : runOps ops { b with data := rest } with _ | ⟨b4, outs2⟩
        · rw [h2] at h; simp at h
        · rw [h2] at h
          simp only [Option.map_some', Option.some.injEq, Prod.mk.injEq] at h
          have := ih _ _ _ h2
          obtain ⟨rfl, rfl⟩ := h
          simp only [putsOf, List.filterMap_cons] at this ⊢
          simp only [List.cons_append]
          exact congrArg (List.cons x) this

/-- C6: the buffer obeys the FIFO law.  Part 1: `buffer_put` of a byte onto
an empty buffer followed by `buffer_get` returns that byte.  Part 2: for
every sequence of interleaved `buffer_put` / `buffer_get` operations starting
from an empty buffer that never pushes onto a full buffer nor pops from an
empty one (i.e. `runOps` succeeds), the bytes returned by `buffer_get`
followed by the bytes still stored equal the bytes passed to `buffer_put` in
order; in particular when the final buffer is empty the pop sequence equals
the push sequence. -/
theorem buffer_fifo_law :
    (∀ (b : Buffer_t) (d : ℕ), b.data = [] → 0 < b.maxSize →
      buffer_get (buffer_put b d).1 = ({ b with data := [] }, some d, none)) ∧
    (∀ (ops : List BufOp) (b b2 : Buffer_t) (outs : List ℕ),
      b.data = [] → runOps ops b = some (b2, outs) →
      putsOf ops = outs ++ b2.data ∧ (b2.data = [] → putsOf ops = outs)) := by
  constructor
  · intro b d hempty hcap
    have hf : ¬ buffer_full b = true := by
      simp [buffer_full, hempty]; omega
    simp [buffer_put, buffer_get, hf, hempty]
  · intro ops b b2 outs hempty h
    have := runOps_fifo ops b b2 outs h
    rw [hempty] at this
    simp only [List.nil_append] at this
    exact ⟨this, fun h2 => by simpa [h2] using this⟩

/-- C6 (witness): pushing 1, 2, popping, pushing 3, popping twice on an
empty capacity-2 buffer succeeds and pops exactly 1, 2, 3 in push order. -/
theorem buffer_fifo_law_witness :
    putsOf [BufOp.putOp 1, BufOp.putOp 2, BufOp.getOp, BufOp.putOp 3, BufOp.getOp, BufOp.getOp] =
      [1, 2, 3] ++ (Buffer_t.mk BufferType_t.BUFFER_TYPE_FIFO [] 2).data :=
  (buffer_fifo_law.2
    [BufOp.putOp 1, BufOp.putOp 2, BufOp.getOp, BufOp.putOp 3, BufOp.getOp, BufOp.getOp]
    ⟨.BUFFER_TYPE_FIFO, [], 2⟩ ⟨.BUFFER_TYPE_FIFO, [], 2⟩ [1, 2, 3] rfl (by decide)).1

/-! ## I2C master driver: `i2c_master_setBitrate` (i2c_master.c lines 30-54)

The C routine computes, in floating point,
`twbrValue = (F_CPU/bitrate - 16.0) / (pow(4, prescalers[prescalerID]) * 2.0)`
inside a `for` loop that starts with `twbrValue = 256` and `prescalerID = 0`,
exits as soon as `twbrValue <= 255`, increments `prescalerID` after each
computation, and throws `ERR_BITRATE_TOO_LOW` when the condition is tested
with `prescalerID >= 4`.  We model the arithmetic exactly over `ℚ` (each
quantity here is far from the 8-bit comparison boundary, so float rounding
does not change any tested comparison).  After the loop the code stores
`TWBR = twbrValue` (float-to-uint8 conversion truncates toward zero) and
`TWSR = (TWPS0 | TWPS1) & prescalerID`, where on this part `TWPS0` and
`TWPS1` are the bit *numbers* 0 and 1, so the mask is `(0 | 1) = 1`. -/

/-- The `prescalers` array of `i2c_master_setBitrate`. -/
def i2c_prescalers : List ℕ := [1, 4, 16, 64]

/-- Truncation toward zero of a rational (C float-to-integer conversion). -/
def ratTrunc (q : ℚ) : ℤ := if 0 ≤ q then ⌊q⌋ else -⌊-q⌋

/-- The `for` loop of `i2c_master_setBitrate`: `remaining` is the suffix of
`prescalers` not yet consumed (`remaining = []` exactly when
`prescalerID >= sizeof(prescalers)/sizeof(*prescalers)`), `X` is
`F_CPU/bitrate - 16`, and the pair returned on exit is the final
`(twbrValue, prescalerID)`. -/
def setBitrateLoop (X : ℚ) : List ℕ → ℚ → ℕ → Except ErrorT (ℚ × ℕ)
  | remaining, twbrValue, prescalerID =>
    if twbrValue > 255 then
      match remaining with
      | [] => .error .ERR_BITRATE_TOO_LOW
      | p :: rest => setBitrateLoop X rest (X / ((4 : ℚ) ^ p * 2)) (prescalerID + 1)
    else .ok (twbrValue, prescalerID)

/-- The two hardware registers written by `i2c_master_setBitrate`. -/
structure I2CBitrateRegs where
  twbr : ℕ
  twsr : ℕ
deriving DecidableEq, Repr

/-- `i2c_master_setBitrate(bitrate)` at CPU frequency `fcpu`: run the
prescaler-selection loop, then write `TWBR = (uint8_t)twbrValue` and
`TWSR = (TWPS0 | TWPS1) & prescalerID = (0 ||| 1) &&& prescalerID`. -/
def i2c_master_setBitrate (fcpu bitrate : ℚ) : Except ErrorT I2CBitrateRegs :=
  match setBitrateLoop (fcpu / bitrate - 16) i2c_prescalers 256 0 with
  | .error e => .error e
  | .ok (twbrValue, prescalerID) =>
    .ok { twbr := (ratTrunc twbrValue).toNat % 256, twsr := (0 ||| 1) &&& prescalerID }

/-- C3 (the claim is right about the intent, the code is wrong): at a 16 MHz
clock, requesting 400 Hz must throw `ERR_BITRATE_TOO_LOW` according to the
claim, since no prescaler in `{1, 4, 16, 64}` makes
`(F_CPU/bitrate - 16) / (2 * prescaler)` fit into 8 bits (part 2 below).
The code, however, divides by `2 * 4^prescaler` — `pow(4,
prescalers[prescalerID])` instead of the prescaler value — so on its second
iteration it computes `39984 / 512 ≈ 78`, accepts it, and returns
`TWBR = 78` with prescaler selection bits `(0 | 1) & 2 = 0`, never throwing
(part 1).  The requested 10000 Hz operating point does select a
representable combination without throwing (part 3, agreeing with the
claim's concrete instance). -/
theorem i2c_setBitrate_never_throws_at_400 :
    i2c_master_setBitrate 16000000 400 = .ok { twbr := 78, twsr := 0 } ∧
    (∀ p ∈ i2c_prescalers, ¬ ((16000000 : ℚ) / 400 - 16) / (2 * p) ≤ 255) ∧
    i2c_master_setBitrate 16000000 10000 = .ok { twbr := 198, twsr := 1 } := by
  refine ⟨?_, ?_, ?_⟩
  · have hloop : setBitrateLoop ((16000000 : ℚ) / 400 - 16) i2c_prescalers 256 0 =
        .ok (39984 / 512, 2) := by
      norm_num [setBitrateLoop, i2c_prescalers]
    simp only [i2c_master_setBitrate, hloop]
    have htr : ratTrunc (39984 / 512) = 78 := by
      norm_num [ratTrunc]
    rw [htr]
    simp only [Except.ok.injEq, I2CBitrateRegs.mk.injEq]
    exact ⟨by decide, by decide⟩
  · simp only [i2c_prescalers, List.mem_cons, List.not_mem_nil, or_false]
    rintro p (rfl | rfl | rfl | rfl) <;> norm_num
  · have hloop : setBitrateLoop ((16000000 : ℚ) / 10000 - 16) i2c_prescalers 256 0 =
        .ok (1584 / 8, 1) := by
      norm_num [setBitrateLoop, i2c_prescalers]
    simp only [i2c_master_setBitrate, hloop]
    have htr : ratTrunc (1584 / 8) = 198 := by
      norm_num [ratTrunc]
    rw [htr]
    simp only [Except.ok.injEq, I2CBitrateRegs.mk.injEq]
    exact ⟨by decide, by decide⟩

/-- C3 (witness): the largest prescaler of the claim's set, 64, is in the
set and still leaves the claim's divisor `(16000000/400 - 16) / (2 * 64)`
above 255. -/
theorem i2c_setBitrate_never_throws_at_400_witness :
    (64 ∈ i2c_prescalers) ∧
      ¬ ((16000000 : ℚ) / 400 - 16) / (2 * ((64 : ℕ) : ℚ)) ≤ 255 :=
  ⟨by decide, i2c_setBitrate_never_throws_at_400.2.1 64 (by decide)⟩

/-! ## UART driver: `uart_setBaudrate` (uart.c lines 119-140)

The C routine computes, in floating point,
`ubrrValue2X = F_CPU/(8*baudrate) - 1` and `ubrrValue1X = F_CPU/(16*baudrate) - 1`,
throws `ERR_BITRATE_TOO_LOW` when `ubrrValue1X > 2047`, computes
`diffNX = abs((signed long)(F_CPU/(N*(round(ubrrValueNX) + 1)) - baudrate))`
for both modes, sets `useDoubleSpeedMode = (diff2X < diff1X) && (ubrrValue2X < 2047)`
and writes `U2X0` together with `ubrrValue = round(use ? ubrrValue2X : ubrrValue1X)`
as a `uint16_t`.  The arithmetic is modelled exactly over `ℚ`.  On AVR,
`int` is 16 bits wide and `abs` takes an `int`, so the `signed long`
difference is truncated to 16 bits before the absolute value is taken;
`round` rounds half away from zero, and float-to-unsigned conversion
truncates.  For requested rates of 2 MHz and above `round(ubrrValue1X) + 1`
reaches `0` and the C code divides by zero (undefined behaviour), so the
theorems below restrict to rates below 2,000,000. -/

/-- Round half away from zero (C `round` applied to the values here). -/
def roundHalfAway (q : ℚ) : ℤ := if 0 ≤ q then ⌊q + 1 / 2⌋ else -⌊-q + 1 / 2⌋

/-- Two's-complement truncation of an integer to 16 bits: the implicit
`long` → `int` conversion at `abs((signed long)(...))` (AVR `int` is
16 bits). -/
def toInt16 (x : ℤ) : ℤ := (x + 32768) % 65536 - 32768

/-- `ubrrValue2X = F_CPU / (8.0 * baudrate) - 1`. -/
def uart_ubrrValue2X (fcpu b : ℚ) : ℚ := fcpu / (8 * b) - 1

/-- `ubrrValue1X = F_CPU / (16.0 * baudrate) - 1`. -/
def uart_ubrrValue1X (fcpu b : ℚ) : ℚ := fcpu / (16 * b) - 1

/-- `diff2X = abs((signed long)(F_CPU / (8.0 * (round(ubrrValue2X) + 1)) - baudrate))`
with the 16-bit truncation of the AVR `abs`. -/
def uart_diff2X (fcpu b : ℚ) : ℕ :=
  (toInt16 (ratTrunc
    (fcpu / (8 * ((roundHalfAway (uart_ubrrValue2X fcpu b) : ℚ) + 1)) - b))).natAbs

/-- `diff1X = abs((signed long)(F_CPU / (16.0 * (round(ubrrValue1X) + 1)) - baudrate))`
with the 16-bit truncation of the AVR `abs`. -/
def uart_diff1X (fcpu b : ℚ) : ℕ :=
  (toInt16 (ratTrunc
    (fcpu / (16 * ((roundHalfAway (uart_ubrrValue1X fcpu b) : ℚ) + 1)) - b))).natAbs

/-- The per-interface configuration written by `uart_setBaudrate`: the
`U2X0` speed-mode bit and the 16-bit `UBRR` divisor (stored to
`UBRRnL`/`UBRRnH` as low and high byte). -/
structure UARTBaudRegs where
  u2x : Bool
  ubrr : ℕ
deriving DecidableEq, Repr

/-- `uart_setBaudrate(uartInterface, baudrate)` at CPU frequency `fcpu`
(the interface argument only selects which register bank is written). -/
def uart_setBaudrate (fcpu b : ℚ) : Except ErrorT UARTBaudRegs :=
  if uart_ubrrValue1X fcpu b > 2047 then .error .ERR_BITRATE_TOO_LOW
  else if uart_diff2X fcpu b < uart_diff1X fcpu b ∧ uart_ubrrValue2X fcpu b < 2047 then
    .ok { u2x := true, ubrr := (roundHalfAway (uart_ubrrValue2X fcpu b)).toNat }
  else
    .ok { u2x := false, ubrr := (roundHalfAway (uart_ubrrValue1X fcpu b)).toNat }

/-- C4 (counterexample): the claim fails on the code at three concrete
inputs, all at a 16 MHz clock.

Part 1 — ties go to normal mode: at 9600 Bd the two modes tie — both
computed differences equal 15 (both modes produce the same actual rate
16000000/1664 ≈ 9615.4) — and the double-speed divisor (≈ 207.3) is in
range, yet the code selects NORMAL mode (divisor 103): the claim's
"preferring double-speed on ties" is false, the code requires
`diff2X < diff1X` strictly.

Part 2 — off ties the chosen mode need not be the closer one: at 430000 Bd
the double-speed actual rate is 400000 (error 30000) and the normal-mode
actual rate is 500000 (error 70000), so double-speed is strictly closer and
its divisor (≈ 3.65) is in range — but the 16-bit AVR `abs` wraps the
normal-mode difference 70000 to 4464, so the code compares 30000 < 4464,
fails, and selects NORMAL mode: "selects whichever of normal and
double-speed mode yields an actual baud rate numerically closer" is false.

Part 3 — the throw condition is not "divisor exceeds the register's range":
`UBRRn` is a 12-bit register (0..4095), and at 300 Bd the rounded
normal-mode divisor 3332 fits it, yet the code throws `ERR_BITRATE_TOO_LOW`
because its test is `ubrrValue1X > 2047`. -/
theorem uart_setBaudrate_counterexample :
    (uart_setBaudrate 16000000 9600 = .ok { u2x := false, ubrr := 103 } ∧
     uart_diff2X 16000000 9600 = uart_diff1X 16000000 9600 ∧
     uart_ubrrValue2X 16000000 9600 < 2047) ∧
    (uart_setBaudrate 16000000 430000 = .ok { u2x := false, ubrr := 1 } ∧
     16000000 / (8 * ((roundHalfAway (uart_ubrrValue2X 16000000 430000) : ℚ) + 1)) =
       400000 ∧
     16000000 / (16 * ((roundHalfAway (uart_ubrrValue1X 16000000 430000) : ℚ) + 1)) =
       500000 ∧
     |(400000 : ℚ) - 430000| < |(500000 : ℚ) - 430000| ∧
     uart_ubrrValue2X 16000000 430000 < 2047) ∧
    (uart_setBaudrate 16000000 300 = .error .ERR_BITRATE_TOO_LOW ∧
     roundHalfAway (uart_ubrrValue1X 16000000 300) = 3332 ∧ (3332 : ℤ) ≤ 4095) := by
  refine ⟨?_, ?_, ?_⟩
  · have h2 : uart_ubrrValue2X 16000000 9600 = 622 / 3 := by
      norm_num [uart_ubrrValue2X]
    have h1 : uart_ubrrValue1X 16000000 9600 = 619 / 6 := by
      norm_num [uart_ubrrValue1X]
    have hr1 : roundHalfAway (619 / 6) = 103 := by
      norm_num [roundHalfAway]
    have hd2 : uart_diff2X 16000000 9600 = 15 := by
      rw [uart_diff2X, h2, show roundHalfAway (622 / 3) = 207 by norm_num [roundHalfAway]]
      norm_num [ratTrunc, toInt16]
    have hd1 : uart_diff1X 16000000 9600 = 15 := by
      rw [uart_diff1X, h1, hr1]
      norm_num [ratTrunc, toInt16]
    refine ⟨?_, by rw [hd2, hd1], by rw [h2]; norm_num⟩
    rw [uart_setBaudrate, if_neg (by rw [h1]; norm_num), if_neg (by rw [hd2, hd1]; simp),
      h1, hr1]
    simp
  · have h2 : uart_ubrrValue2X 16000000 430000 = 157 / 43 := by
      norm_num [uart_ubrrValue2X]
    have h1 : uart_ubrrValue1X 16000000 430000 = 57 / 43 := by
      norm_num [uart_ubrrValue1X]
    have hr2 : roundHalfAway (157 / 43) = 4 := by
      norm_num [roundHalfAway]
    have hr1 : roundHalfAway (57 / 43) = 1 := by
      norm_num [roundHalfAway]
    have hd2 : uart_diff2X 16000000 430000 = 30000 := by
      rw [uart_diff2X, h2, hr2]
      norm_num [ratTrunc, toInt16]
    have hd1 : uart_diff1X 16000000 430000 = 4464 := by
      rw [uart_diff1X, h1, hr1]
      norm_num [ratTrunc, toInt16]
    refine ⟨?_, by rw [h2, hr2]; norm_num, by rw [h1, hr1]; norm_num, by norm_num,
      by rw [h2]; norm_num⟩
    rw [uart_setBaudrate, if_neg (by rw [h1]; norm_num), if_neg (by rw [hd2, hd1]; simp),
      h1, hr1]
    simp
  · have h1 : uart_ubrrValue1X 16000000 300 = 9997 / 3 := by
      norm_num [uart_ubrrValue1X]
    refine ⟨?_, by rw [h1]; norm_num [roundHalfAway], by norm_num⟩
    rw [uart_setBaudrate, if_pos (by rw [h1]; norm_num)]

/-- C4 (amended): for every requested baud rate in the UB-free region
(`0 < baudrate < 2000000`), `uart_setBaudrate` throws the bitrate-too-low
error exactly when the normal-mode (16x) divisor exceeds 2047; otherwise it
selects double-speed mode exactly when the code's computed (16-bit truncated)
absolute rate difference for double-speed is strictly smaller than normal
mode's and the double-speed divisor is below 2047 — so on ties it selects
normal mode — and writes the chosen mode's rounded divisor and speed bit. -/
theorem uart_setBaudrate_selection (b : ℕ) (hb : 0 < b) (hb2 : b < 2000000) :
    (uart_setBaudrate 16000000 b = .error .ERR_BITRATE_TOO_LOW ↔
      uart_ubrrValue1X 16000000 b > 2047) ∧
    (¬ uart_ubrrValue1X 16000000 b > 2047 →
      ((uart_setBaudrate 16000000 b =
          .ok { u2x := true, ubrr := (roundHalfAway (uart_ubrrValue2X 16000000 b)).toNat } ↔
        uart_diff2X 16000000 b < uart_diff1X 16000000 b ∧
          uart_ubrrValue2X 16000000 b < 2047) ∧
       (uart_setBaudrate 16000000 b =
          .ok { u2x := false, ubrr := (roundHalfAway (uart_ubrrValue1X 16000000 b)).toNat } ↔
        ¬ (uart_diff2X 16000000 b < uart_diff1X 16000000 b ∧
            uart_ubrrValue2X 16000000 b < 2047)))) := by
  unfold uart_setBaudrate
  split_ifs with hthrow hfast
  · simp [hthrow]
  · simp [hthrow, hfast]
  · simp [hthrow, hfast]

/-- C4 (witness): the amended theorem applied at 9600 Bd: the throw
characterization holds there. -/
theorem uart_setBaudrate_selection_witness :
    uart_setBaudrate 16000000 (9600 : ℕ) = .error .ERR_BITRATE_TOO_LOW ↔
      uart_ubrrValue1X 16000000 (9600 : ℕ) > 2047 :=
  (uart_setBaudrate_selection 9600 (by norm_num) (by norm_num)).1

/-! ## UART receive buffers (uart.c lines 46-78)

uart.c declares `volatile uint8_t _rawUARTBuffers[3][UART_BUFFER_SIZE];`
(three rows of `UART_BUFFER_SIZE = 64` bytes, valid row indices 0..2) and
initializes the four `Buffer_t` entries of `_uartBuffers` — one per UART
interface 0..3 — with `.ptr = _rawUARTBuffers[0]` .. `_rawUARTBuffers[3]`. -/

/-- Number of rows in the declaration of `_rawUARTBuffers`. -/
def rawUARTBufferRows : ℕ := 3

/-- `UART_BUFFER_SIZE` from config.template.h. -/
def UART_BUFFER_SIZE : ℕ := 64

/-- Row of `_rawUARTBuffers` used as the backing array of
`_uartBuffers[i]` (the initializer uses `.ptr = _rawUARTBuffers[i]`). -/
def uartBufferBackingRow (i : Fin 4) : ℕ := (i : ℕ)

/-- The backing row of interface `i` lies within the declared bounds of
`_rawUARTBuffers`. -/
def uartBufferRowInBounds (i : Fin 4) : Prop :=
  uartBufferBackingRow i < rawUARTBufferRows

/-- C9: the four per-interface receive FIFOs use pairwise distinct rows of
the raw-buffer storage, and the rows of interfaces 0..2 are within the
declared bounds — but the backing array of interface 3 is `_rawUARTBuffers[3]`,
one row past the end of the 3-row declaration: indexing with interface
identifier 3 does NOT stay within the array's declared bounds (the claim is
the evident intent — four initializers labelled UART0..UART3 — and the code's
`[3]` extent is the slip). -/
theorem uartBuffers_bounds :
    (∀ i j : Fin 4, i ≠ j → uartBufferBackingRow i ≠ uartBufferBackingRow j) ∧
    uartBufferRowInBounds 0 ∧ uartBufferRowInBounds 1 ∧ uartBufferRowInBounds 2 ∧
    ¬ uartBufferRowInBounds 3 := by
  refine ⟨by decide, ?_, ?_, ?_, ?_⟩ <;>
    · unfold uartBufferRowInBounds uartBufferBackingRow rawUARTBufferRows
      decide

/-- C9 (witness): interfaces 0 and 3 use distinct backing rows. -/
theorem uartBuffers_bounds_witness :
    uartBufferBackingRow 0 ≠ uartBufferBackingRow 3 :=
  uartBuffers_bounds.1 0 3 (by decide)

/-! ## DS1307 register conversions (ds1307.c lines 69-142, binary.h lines 36-42)

`DS1307_setDatetime` converts a `struct tm` into the 8-byte register image
(BCD-packed per field, 24-hour mode, month stored 1-based, year stored as an
offset from 2000 = `tm_year - 100`); `DS1307_getDatetime` parses a register
image back into a `struct tm` (honouring the 12/24-hour select bit 6 and the
AM/PM bit 5 of the hour register).  `CHECKBIT(v, b)` is `v & (1 << b)`,
i.e. `Nat.testBit`. -/

/-- `FROM_BCD(n) = (n & 0x0F) + ((n & 0xF0) >> 4) * 10` (binary.h line 36). -/
def FROM_BCD (n : ℕ) : ℕ := (n &&& 0x0F) + ((n &&& 0xF0) >>> 4) * 10

/-- `TO_BCD(n) = n % 10 | (n / 10) << 4` (binary.h line 42). -/
def TO_BCD (n : ℕ) : ℕ := (n % 10) ||| ((n / 10) <<< 4)

/-- The fields of `struct tm` used by the DS1307 driver (C convention:
`tm_mon` is 0-based, `tm_year` counts from 1900, `tm_wday` is 0-based). -/
structure Tm where
  tm_sec : ℕ
  tm_min : ℕ
  tm_hour : ℕ
  tm_mday : ℕ
  tm_mon : ℕ
  tm_year : ℕ
  tm_wday : ℕ
deriving DecidableEq, Repr

/-- The 8-byte DS1307 register image (registers 0..7). -/
structure DS1307Regs where
  sec : ℕ
  min : ℕ
  hour : ℕ
  dow : ℕ
  date : ℕ
  mon : ℕ
  year : ℕ
  ctrl : ℕ
deriving DecidableEq, Repr

/-- The register image written by `DS1307_setDatetime` (ds1307.c lines
117-138); `ctrl` is the control-register byte read back from the device and
preserved verbatim. -/
def DS1307_setDatetime (t : Tm) (ctrl : ℕ) : DS1307Regs :=
  { sec := TO_BCD t.tm_sec &&& 0x7F
    min := TO_BCD t.tm_min &&& 0x7F
    hour := TO_BCD t.tm_hour &&& 0x3F
    date := TO_BCD t.tm_mday &&& 0x3F
    dow := TO_BCD (t.tm_wday + 1) &&& 0x3F
    mon := TO_BCD (t.tm_mon + 1) &&& 0x3F
    year := TO_BCD (t.tm_year - 100)
    ctrl := ctrl }

/-- The `struct tm` parsed by `DS1307_getDatetime` from a register image
(ds1307.c lines 76-101); `tm_wday` is not parsed (`mktime` recomputes it),
modelled as 0. -/
def DS1307_getDatetime (r : DS1307Regs) : Tm :=
  { tm_sec := FROM_BCD (r.sec &&& 0x7F)
    tm_min := FROM_BCD (r.min &&& 0x7F)
    tm_hour :=
      if (r.hour).testBit 6 then
        FROM_BCD (r.hour &&& 0x1F) + (if (r.hour).testBit 5 then 12 else 0)
      else
        FROM_BCD (r.hour &&& 0x3F)
    tm_mday := FROM_BCD (r.date &&& 0x3F)
    tm_mon := FROM_BCD (r.mon &&& 0x1F) - 1
    tm_year := FROM_BCD (r.year &&& 0xFF) + 100
    tm_wday := 0 }

/-- Seconds/minutes round-trip through the `& 0x7F`-masked BCD encoding. -/
theorem bcd_rt_60 : ∀ n, n < 60 → FROM_BCD ((TO_BCD n &&& 0x7F) &&& 0x7F) = n := by
  decide

/-- Hour round-trip: the encoded hour register has bit 6 clear (24-hour
mode), and decoding recovers the hour. -/
theorem bcd_rt_hour : ∀ n, n < 24 →
    (if (TO_BCD n &&& 0x3F).testBit 6 then
      FROM_BCD ((TO_BCD n &&& 0x3F) &&& 0x1F) +
        (if (TO_BCD n &&& 0x3F).testBit 5 then 12 else 0)
    else FROM_BCD ((TO_BCD n &&& 0x3F) &&& 0x3F)) = n := by
  decide

/-- Date round-trip through the `& 0x3F`-masked BCD encoding. -/
theorem bcd_rt_date : ∀ n, n < 32 → FROM_BCD ((TO_BCD n &&& 0x3F) &&& 0x3F) = n := by
  decide

/-- Month round-trip: stored 1-based and masked, decoded back 0-based. -/
theorem bcd_rt_mon : ∀ n, n < 12 →
    FROM_BCD ((TO_BCD (n + 1) &&& 0x3F) &&& 0x1F) - 1 = n := by
  decide

set_option maxRecDepth 4000 in
/-- Year round-trip: stored as BCD of `tm_year - 100`, decoded back. -/
theorem bcd_rt_year : ∀ n, n < 200 → 100 ≤ n →
    FROM_BCD (TO_BCD (n - 100) &&& 0xFF) + 100 = n := by
  decide

/-- C8: encoding a calendar time with `DS1307_setDatetime`'s conversion and
decoding the image back with `DS1307_getDatetime`'s conversion yields the
original seconds, minutes, hours, date, month and year fields, for every
valid calendar time in the representable range (`tm_year` 100..199, i.e.
years 2000-2099); the encoder always writes 24-hour mode and the decoder's
12/24-hour branch resolves accordingly. -/
theorem ds1307_datetime_roundtrip (t : Tm) (ctrl : ℕ)
    (hsec : t.tm_sec < 60) (hmin : t.tm_min < 60) (hhour : t.tm_hour < 24)
    (hmday1 : 1 ≤ t.tm_mday) (hmday : t.tm_mday < 32) (hmon : t.tm_mon < 12)
    (hyear1 : 100 ≤ t.tm_year) (hyear : t.tm_year < 200) :
    (DS1307_getDatetime (DS1307_setDatetime t ctrl)).tm_sec = t.tm_sec ∧
    (DS1307_getDatetime (DS1307_setDatetime t ctrl)).tm_min = t.tm_min ∧
    (DS1307_getDatetime (DS1307_setDatetime t ctrl)).tm_hour = t.tm_hour ∧
    (DS1307_getDatetime (DS1307_setDatetime t ctrl)).tm_mday = t.tm_mday ∧
    (DS1307_getDatetime (DS1307_setDatetime t ctrl)).tm_mon = t.tm_mon ∧
    (DS1307_getDatetime (DS1307_setDatetime t ctrl)).tm_year = t.tm_year := by
  refine ⟨?_, ?_, ?_, ?_, ?_, ?_⟩
  · exact bcd_rt_60 t.tm_sec hsec
  · exact bcd_rt_60 t.tm_min hmin
  · exact bcd_rt_hour t.tm_hour hhour
  · exact bcd_rt_date t.tm_mday hmday
  · exact bcd_rt_mon t.tm_mon hmon
  · exact bcd_rt_year t.tm_year hyear hyear1

/-- C8 (witness): the round-trip theorem applied to 2025-10-24 13:45:30
(`tm_year = 125`, `tm_mon = 9`, a Friday). -/
theorem ds1307_datetime_roundtrip_witness :
    (DS1307_getDatetime (DS1307_setDatetime ⟨30, 45, 13, 24, 9, 125, 5⟩ 0)).tm_sec = 30 ∧
    (DS1307_getDatetime (DS1307_setDatetime ⟨30, 45, 13, 24, 9, 125, 5⟩ 0)).tm_min = 45 ∧
    (DS1307_getDatetime (DS1307_setDatetime ⟨30, 45, 13, 24, 9, 125, 5⟩ 0)).tm_hour = 13 ∧
    (DS1307_getDatetime (DS1307_setDatetime ⟨30, 45, 13, 24, 9, 125, 5⟩ 0)).tm_mday = 24 ∧
    (DS1307_getDatetime (DS1307_setDatetime ⟨30, 45, 13, 24, 9, 125, 5⟩ 0)).tm_mon = 9 ∧
    (DS1307_getDatetime (DS1307_setDatetime ⟨30, 45, 13, 24, 9, 125, 5⟩ 0)).tm_year = 125 :=
  ds1307_datetime_roundtrip ⟨30, 45, 13, 24, 9, 125, 5⟩ 0 (by decide) (by decide)
    (by decide) (by decide) (by decide) (by decide) (by decide) (by decide)

end Elob
